import Mathlib

/-!
Shallow embedding of the `magic-rest` Go package (`radhelper.go`) and proofs
about its query-parameter interpretation and pagination engine.

Modelling conventions:
* Go strings are modelled as `List Char` (`GoStr`); all string data handled by
  the package is ASCII, where byte indexing and rune indexing agree.
* `url.Values` (`map[string][]string`) is modelled as an association list
  `Params`; `Values.Get` returns the first value of the first matching entry,
  or the empty string.
* Go `map[string]string` is modelled as an association list `FieldMap`;
  lookup of a missing key yields the zero value `""`.
* The `gorm.DB` handle is modelled as a `DB` record of accumulated clauses;
  each gorm method (`Where`, `Preload`, `Select`, `Group`, `Order`, `Limit`,
  `Offset`) appends or sets the corresponding clause.
* Actual query execution (`Count`, `Find`) is delegated to an abstract
  `Engine`, mirroring the fact that the package treats the data-access layer
  as an opaque executor.
* Go `int`/`int64` are modelled as `Int` (arbitrary precision; no claim here
  depends on overflow).  Go integer division truncates toward zero, i.e.
  `Int.tdiv`.
* A Go runtime panic (out-of-range slice index) is modelled as the `none`
  result of an `Option`-valued function.
-/

namespace MagicRest

/-- Go strings, as rune lists. -/
abbrev GoStr := List Char

/-- Conversion from Lean string literals to the `GoStr` model. -/
def gs (s : String) : GoStr := s.toList

/-- Model of `url.Values`: a string-keyed multimap of query parameters. -/
abbrev Params := List (GoStr × List GoStr)

/-- Model of Go `map[string]string` (field name to declared type). -/
abbrev FieldMap := List (GoStr × GoStr)

/-- `url.Values.Get`: first value associated with the key, `""` if the key is
absent or its value list is empty. -/
def getQ (q : Params) (k : GoStr) : GoStr :=
  match q.find? (fun p => p.1 == k) with
  | some (_, v :: _) => v
  | _ => []

/-- Go map lookup with the string zero value `""` for missing keys. -/
def mapLookup (m : FieldMap) (k : GoStr) : GoStr :=
  match m.find? (fun p => p.1 == k) with
  | some (_, v) => v
  | none => []

/-- Go map membership test (`_, ok := m[k]`). -/
def mapHasKey (m : FieldMap) (k : GoStr) : Bool :=
  (m.find? (fun p => p.1 == k)).isSome

/-- `strings.HasSuffix`. -/
def goHasSuffix (s suf : GoStr) : Bool := suf.isSuffixOf s

/-- `strings.Split` with a one-rune separator (the package only splits on
`","` and `"."`).  `splitSep sep ""` = `[""]`, matching Go. -/
def splitSep (sep : Char) : GoStr → List GoStr
  | [] => [[]]
  | c :: rest =>
    if c = sep then [] :: splitSep sep rest
    else
      match splitSep sep rest with
      | [] => [[c]]
      | h :: t => (c :: h) :: t

/-- Whitespace recognised by `strings.TrimSpace` (the ASCII and Latin-1 part
of `unicode.IsSpace`; no claim involves wider Unicode whitespace). -/
def isSpaceChar (c : Char) : Bool :=
  c = ' ' || (9 ≤ c.toNat && c.toNat ≤ 13) || c.toNat = 0x85 || c.toNat = 0xA0

/-- `strings.TrimSpace`. -/
def trimSpace (s : GoStr) : GoStr :=
  ((s.dropWhile isSpaceChar).reverse.dropWhile isSpaceChar).reverse

/-- `strings.Join`. -/
def goJoin (sep : GoStr) : List GoStr → GoStr
  | [] => []
  | [x] => x
  | x :: xs => x ++ sep ++ goJoin sep xs

/-- `strconv.Atoi`: optional sign followed by at least one ASCII digit
(arbitrary precision; the claims do not involve 64-bit overflow). -/
def atoi (s : GoStr) : Option Int :=
  match s with
  | [] => none
  | _ =>
    let (neg, ds) :=
      match s with
      | '-' :: rest => (true, rest)
      | '+' :: rest => (false, rest)
      | _ => (false, s)
    if ds = [] then none
    else if ds.all (fun c => '0' ≤ c && c ≤ '9') then
      let n : Nat := ds.foldl (fun acc c => acc * 10 + (c.toNat - '0'.toNat)) 0
      some (if neg then -(n : Int) else (n : Int))
    else none

/-- ASCII hexadecimal digit (the `xtob` table of the uuid library). -/
def isHexChar (c : Char) : Bool :=
  ('0' ≤ c && c ≤ '9') || ('a' ≤ c && c ≤ 'f') || ('A' ≤ c && c ≤ 'F')

/-- ASCII lower-casing, as used by the uuid library's fold of the URN marker. -/
def toLowerChar (c : Char) : Char :=
  if 'A' ≤ c && c ≤ 'Z' then Char.ofNat (c.toNat + 32) else c

/-- The canonical 36-rune `8-4-4-4-12` UUID body: dashes at offsets 8, 13,
18, 23 and hexadecimal digits elsewhere. -/
def uuidBody36 (cs : GoStr) : Bool :=
  cs.length = 36 &&
    (List.range 36).all (fun i =>
      let c := cs.getD i ' '
      if i = 8 || i = 13 || i = 18 || i = 23 then c = '-' else isHexChar c)

/-- Whether `uuid.Parse` (external dependency `github.com/google/uuid`)
accepts the string: the canonical form, the `urn:uuid:` form (marker compared
case-insensitively), the braced form (the library strips the outer runes
without inspecting them), or the 32-digit bare-hex form. -/
def uuidParseOk (s : GoStr) : Bool :=
  if s.length = 36 then uuidBody36 s
  else if s.length = 45 then
    ((s.take 9).map toLowerChar == gs "urn:uuid:") && uuidBody36 (s.drop 9)
  else if s.length = 38 then uuidBody36 ((s.drop 1).take 36)
  else if s.length = 32 then s.all isHexChar
  else false

/-- One argument bound to a `WHERE` clause placeholder. -/
inductive WhereArg where
  | intVal (v : Int)
  | strVal (v : GoStr)
  | intList (vs : List Int)
  | strList (vs : List GoStr)
deriving DecidableEq, Repr

/-- Model of the `gorm.DB` request state: the clauses accumulated by the
builder calls the package performs. -/
structure DB where
  wheres : List (GoStr × WhereArg) := []
  preloads : List GoStr := []
  selectExpr : Option GoStr := none
  groups : List GoStr := []
  orders : List GoStr := []
  limit : Option Int := none
  offset : Option Int := none
deriving DecidableEq, Repr

/-- `db.Where(expr, arg)`: appends a condition. -/
def dbWhere (db : DB) (expr : GoStr) (arg : WhereArg) : DB :=
  { db with wheres := db.wheres ++ [(expr, arg)] }

/-- `db.Preload(rel)`: appends a relation to eager-load. -/
def dbPreload (db : DB) (rel : GoStr) : DB :=
  { db with preloads := db.preloads ++ [rel] }

/-- `db.Select(expr)`: sets the select expression. -/
def dbSelect (db : DB) (expr : GoStr) : DB :=
  { db with selectExpr := some expr }

/-- `db.Group(expr)`: appends a group clause. -/
def dbGroup (db : DB) (expr : GoStr) : DB :=
  { db with groups := db.groups ++ [expr] }

/-- `db.Order(expr)`: appends an order clause. -/
def dbOrder (db : DB) (expr : GoStr) : DB :=
  { db with orders := db.orders ++ [expr] }

/-- The `Options` struct (field defaults are the Go zero values). -/
structure Options where
  SearchField : GoStr := []
  OrderBy : GoStr := []
  PreloadFields : List GoStr := []
  DefaultFieldTypes : Option FieldMap := none
  DefaultPage : Int := 0
  DefaultPageSize : Int := 0
  AllowGroupBy : Bool := false

/-- The pagination map built by `PaginateGeneric` (fixed keys, so modelled as
a record). -/
structure Pagination where
  page : Int
  pageSize : Int
  pageCount : Int
  total : Int
  hasNext : Bool
  hasPrev : Bool
deriving DecidableEq, Repr

/-- The `Result` struct.  `Meta` is a string-keyed map whose only possible
entry is `"pagination"`. -/
structure MRResult (T : Type) where
  data : List T
  meta : List (GoStr × Pagination)
deriving DecidableEq

/-- The error surface of the package: its own `ErrInvalidFilter`, or an error
propagated from the data-access engine. -/
inductive GoError where
  | invalidFilter
  | engineErr (msg : GoStr)
deriving DecidableEq, Repr

/-- The opaque query-execution engine (gorm's `Count` and `Find`): given the
accumulated request state it yields a row count, respectively a row list, or
an error. -/
structure Engine (T : Type) where
  count : DB → Except GoStr Int
  find : DB → Except GoStr (List T)

/-- The built-in `defaultAllowed` field-type map of `ReadPaginated`. -/
def defaultAllowed : FieldMap :=
  [(gs "id", gs "uuid"), (gs "status", gs "string"),
   (gs "jumlah", gs "int"), (gs "gudang_id", gs "uuid")]

/-- Lines 72–81: merge of built-in defaults into the caller's field-type map.
Returns the map used by the call, paired with the map object the caller
observes after the call.  Go maps are reference types, so when the caller
passed a non-nil map, the statement `opts.DefaultFieldTypes[k] = v` writes
through the shared map header: the caller's map afterwards is the merged map.
When the caller passed nil, the fresh `defaultAllowed` literal is used and
the caller keeps nil. -/
def mergeFieldTypes (caller : Option FieldMap) : FieldMap × Option FieldMap :=
  match caller with
  | none => (defaultAllowed, none)
  | some m =>
    let m' := defaultAllowed.foldl
      (fun acc kv => if mapHasKey acc kv.1 then acc else acc ++ [kv]) m
    (m', some m')

/-- Lines 42–55: effective page (caller default clamped to ≥ 1, then a
positive numeric `page` parameter overrides). -/
def resolvePage (q : Params) (opts : Options) : Int :=
  let page := if opts.DefaultPage ≤ 0 then 1 else opts.DefaultPage
  let p := getQ q (gs "page")
  if p = [] then page
  else
    match atoi p with
    | some pi => if pi > 0 then pi else page
    | none => page

/-- Lines 46–60: effective pageSize (caller default clamped to ≥ 1 with
fallback 10, then a positive numeric `pageSize` parameter overrides). -/
def resolvePageSize (q : Params) (opts : Options) : Int :=
  let pageSize := if opts.DefaultPageSize ≤ 0 then 10 else opts.DefaultPageSize
  let ps := getQ q (gs "pageSize")
  if ps = [] then pageSize
  else
    match atoi ps with
    | some psi => if psi > 0 then psi else pageSize
    | none => pageSize

/-- The `case "int"` inner loop (lines 100–108): left-to-right over the
parts, an unparsable part sets the invalid flag and is skipped, parsable
parts are collected in order. -/
def collectInts : List GoStr → List Int × Bool
  | [] => ([], false)
  | v :: rest =>
    match atoi v, collectInts rest with
    | none, (ints, _) => (ints, true)
    | some iv, (ints, bad) => (iv :: ints, bad)

/-- The `case "uuid"` inner loop (lines 113–120): an unparsable part sets the
invalid flag and is skipped, parsable parts are kept as strings in order. -/
def collectUUIDs : List GoStr → List GoStr × Bool
  | [] => ([], false)
  | v :: rest =>
    match uuidParseOk v, collectUUIDs rest with
    | false, (us, _) => (us, true)
    | true, (us, bad) => (v :: us, bad)

/-- Body of the dynamic-filter loop (lines 85–146) for a single query entry.
`none` models the Go panic on `vals[0]` when the value list is empty. -/
def processEntry (ftypes : FieldMap) (db : DB) (invalid : Bool)
    (key : GoStr) (vals : List GoStr) : Option (DB × Bool) :=
  if (gs "filter[").isPrefixOf key && goHasSuffix key (gs "]") then
    let field := (key.drop 7).dropLast
    if field = [] then some (db, invalid)
    else
      match vals.head? with
      | none => none
      | some value =>
        let fieldType := mapLookup ftypes field
        if value.contains ',' then
          let parts := (splitSep ',' value).map trimSpace
          if fieldType = gs "int" then
            let (ints, bad) := collectInts parts
            some (if ints ≠ [] then dbWhere db (field ++ gs " IN ?") (.intList ints) else db,
                  invalid || bad)
          else if fieldType = gs "uuid" then
            let (us, bad) := collectUUIDs parts
            some (if us ≠ [] then dbWhere db (field ++ gs " IN ?") (.strList us) else db,
                  invalid || bad)
          else
            some (dbWhere db (field ++ gs " IN ?") (.strList parts), invalid)
        else
          if fieldType = gs "int" then
            match atoi value with
            | none => some (db, true)
            | some iv => some (dbWhere db (field ++ gs " = ?") (.intVal iv), invalid)
          else if fieldType = gs "uuid" then
            if uuidParseOk value then
              some (dbWhere db (field ++ gs " = ?") (.strVal value), invalid)
            else some (db, true)
          else some (dbWhere db (field ++ gs " = ?") (.strVal value), invalid)
  else some (db, invalid)

/-- The dynamic-filter loop (lines 84–147) over all query entries, threading
the builder state and the invalid flag. -/
def processFilters (ftypes : FieldMap) (db : DB) (invalid : Bool) :
    Params → Option (DB × Bool)
  | [] => some (db, invalid)
  | (k, vs) :: rest =>
    match processEntry ftypes db invalid k vs with
    | none => none
    | some (db', inv') => processFilters ftypes db' inv' rest

/-- Lines 153–165: preload relations from the `preload` parameter if present
(split on commas, trimmed, empty names skipped), else from the caller's
configured list. -/
def applyPreload (q : Params) (opts : Options) (db : DB) : DB :=
  let pq := getQ q (gs "preload")
  if pq ≠ [] then
    (splitSep ',' pq).foldl
      (fun d f => let f := trimSpace f; if f ≠ [] then dbPreload d f else d) db
  else
    opts.PreloadFields.foldl dbPreload db

/-- Lines 167–182: the search clause (ILIKE on the configured field, with the
one-dot `relation.field` form qualified). -/
def applySearch (q : Params) (opts : Options) (db : DB) : DB :=
  let search := getQ q (gs "search")
  if opts.SearchField ≠ [] ∧ search ≠ [] then
    let pat := gs "%" ++ search ++ gs "%"
    if opts.SearchField.contains '.' then
      let parts := splitSep '.' opts.SearchField
      if parts.length = 2 then
        dbWhere db (parts.getD 0 [] ++ gs "." ++ parts.getD 1 [] ++ gs " ILIKE ?")
          (.strVal pat)
      else dbWhere db (opts.SearchField ++ gs " ILIKE ?") (.strVal pat)
    else dbWhere db (opts.SearchField ++ gs " ILIKE ?") (.strVal pat)
  else db

/-- Lines 184–196: the optional group-by path (select the grouped fields plus
`MAX(created_at)`, group by them, order by the aggregate descending). -/
def applyGroupBy (q : Params) (opts : Options) (db : DB) : DB :=
  if opts.AllowGroupBy then
    let gq := getQ q (gs "groupby")
    if gq ≠ [] then
      let fields := (splitSep ',' gq).map trimSpace
      let groupExpr := goJoin (gs ", ") fields
      dbOrder (dbGroup (dbSelect db (groupExpr ++ gs ", MAX(created_at) as created_at"))
          groupExpr)
        (gs "MAX(created_at) desc")
    else db
  else db

/-- Lines 198–207: the order-by resolution (`order` parameter, else the
configured default, else `created_at desc`). -/
def applyOrderBy (q : Params) (opts : Options) (db : DB) : DB :=
  let orderBy := opts.OrderBy
  let orderBy := let qo := getQ q (gs "order"); if qo ≠ [] then qo else orderBy
  if orderBy ≠ [] then dbOrder db orderBy else dbOrder db (gs "created_at desc")

/-- Lines 41–207 of `ReadPaginated`: everything before pagination.  Yields
`none` on the `vals[0]` panic, `some (.error ())` when the invalid-filter
flag is set, and otherwise the fully composed request together with the
effective page and pageSize. -/
def buildQuery (q : Params) (db : DB) (opts : Options) :
    Option (Except Unit (DB × Int × Int)) :=
  let page := resolvePage q opts
  let pageSize := resolvePageSize q opts
  let ftypes := (mergeFieldTypes opts.DefaultFieldTypes).1
  match processFilters ftypes db false q with
  | none => none
  | some (db1, invalid) =>
    if invalid then some (.error ())
    else
      some (.ok
        (applyOrderBy q opts (applyGroupBy q opts (applySearch q opts (applyPreload q opts db1))),
         page, pageSize))

/-- `PaginateGeneric` (lines 230–259): count on a session copy of the
request, fetch with limit/offset, and build the pagination metadata.
`totalPages` uses Go's truncating integer division. -/
def paginateGeneric {T : Type} (eng : Engine T) (db : DB) (page pageSize : Int) :
    Except GoStr (List T × Pagination) :=
  match eng.count db with
  | .error e => .error e
  | .ok total =>
    let offset := (page - 1) * pageSize
    let findDB := { db with limit := some pageSize, offset := some offset }
    match eng.find findDB with
    | .error e => .error e
    | .ok out =>
      let totalPages := Int.tdiv (total + pageSize - 1) pageSize
      .ok (out,
        { page := page, pageSize := pageSize, pageCount := totalPages, total := total,
          hasNext := decide (page < totalPages),
          hasPrev := decide (page > 1) && decide (totalPages > 0) })

/-- `ReadPaginated` (lines 40–219).  Go's `(Result[T], error)` pair is the
result paired with an optional error; the outer `Option` models the panic. -/
def readPaginated {T : Type} (eng : Engine T) (q : Params) (db : DB) (opts : Options) :
    Option (MRResult T × Option GoError) :=
  match buildQuery q db opts with
  | none => none
  | some (.error _) => some ({ data := [], meta := [] }, some .invalidFilter)
  | some (.ok (db5, page, pageSize)) =>
    match paginateGeneric eng db5 page pageSize with
    | .error e => some ({ data := [], meta := [] }, some (.engineErr e))
    | .ok (data, pagination) =>
      some ({ data := data, meta := [(gs "pagination", pagination)] }, none)

/-- `ReadPaginatedFromGin` (lines 223–225): a direct delegation. -/
def readPaginatedFromGin {T : Type} (eng : Engine T) (q : Params) (db : DB)
    (opts : Options) : Option (MRResult T × Option GoError) :=
  readPaginated eng q db opts

/-! ### Specification-side helper definitions -/

/-- The raw query key carrying a filter on `f`. -/
def filterKey (f : GoStr) : GoStr := gs "filter[" ++ f ++ gs "]"

/-- A single raw value part that fails coercion for the declared type. -/
def partBad (ft : GoStr) (v : GoStr) : Bool :=
  if ft = gs "int" then (atoi v).isNone
  else if ft = gs "uuid" then !uuidParseOk v
  else false

/-- Whether one raw query entry carries a filter value that fails coercion
for its declared field type. -/
def entryInvalid (ftypes : FieldMap) (kv : GoStr × List GoStr) : Bool :=
  if (gs "filter[").isPrefixOf kv.1 && goHasSuffix kv.1 (gs "]") then
    let field := (kv.1.drop 7).dropLast
    if field = [] then false
    else
      match kv.2.head? with
      | none => false
      | some value =>
        let ft := mapLookup ftypes field
        if value.contains ',' then ((splitSep ',' value).map trimSpace).any (partBad ft)
        else partBad ft value
  else false

/-- Whether some raw query entry carries a filter value that fails coercion. -/
def filtersInvalid (ftypes : FieldMap) (q : Params) : Bool :=
  q.any (entryInvalid ftypes)

/-- The order expression the order-by step resolves: the `order` parameter,
else the configured default, else `created_at desc`. -/
def resolvedOrder (q : Params) (opts : Options) : GoStr :=
  if getQ q (gs "order") ≠ [] then getQ q (gs "order")
  else if opts.OrderBy ≠ [] then opts.OrderBy
  else gs "created_at desc"

/-- An entry whose key is a filter key over a non-empty field but whose value
list is empty: the shape on which the `vals[0]` access is out of bounds. -/
def panicEntry (kv : GoStr × List GoStr) : Bool :=
  (gs "filter[").isPrefixOf kv.1 && goHasSuffix kv.1 (gs "]") &&
    !((kv.1.drop 7).dropLast = ([] : GoStr)) && (kv.2 = ([] : List GoStr))

/-! ### Helper lemmas -/

theorem isPrefixOf_append_self (p r : List Char) : p.isPrefixOf (p ++ r) = true := by
  induction p with
  | nil => simp [List.isPrefixOf]
  | cons a as ih => simp [List.isPrefixOf, ih]

theorem isSuffixOf_append_self (s r : List Char) : s.isSuffixOf (r ++ s) = true := by
  show (s.reverse.isPrefixOf (r ++ s).reverse) = true
  rw [List.reverse_append]
  exact isPrefixOf_append_self _ _

theorem filterKey_cond (f : GoStr) :
    ((gs "filter[").isPrefixOf (filterKey f) && goHasSuffix (filterKey f) (gs "]")) = true := by
  have h1 : (gs "filter[").isPrefixOf (filterKey f) = true := by
    have : filterKey f = gs "filter[" ++ (f ++ gs "]") := by
      simp [filterKey]
    rw [this]
    exact isPrefixOf_append_self _ _
  have h2 : goHasSuffix (filterKey f) (gs "]") = true := by
    show (gs "]").isSuffixOf (filterKey f) = true
    have : filterKey f = (gs "filter[" ++ f) ++ gs "]" := by
      simp [filterKey]
    rw [this]
    exact isSuffixOf_append_self _ _
  rw [h1, h2]
  rfl

theorem filterKey_field (f : GoStr) : ((filterKey f).drop 7).dropLast = f := by
  have h7 : (7 : Nat) = (gs "filter[").length := rfl
  have : filterKey f = gs "filter[" ++ (f ++ [']']) := by
    simp [filterKey, gs]
  rw [this, h7, List.drop_left, List.dropLast_concat]

theorem splitSep_ne_nil (sep : Char) (s : GoStr) : splitSep sep s ≠ [] := by
  induction s with
  | nil => simp [splitSep]
  | cons c rest ih =>
    simp only [splitSep]
    split
    · simp
    · cases h : splitSep sep rest with
      | nil => simp
      | cons h t => simp

theorem collectInts_of_mapM (l : List GoStr) (ivs : List Int)
    (h : l.mapM atoi = some ivs) : collectInts l = (ivs, false) := by
  induction l generalizing ivs with
  | nil =>
    simp only [List.mapM_nil, pure, Option.some.injEq] at h
    simp [collectInts, ← h]
  | cons v rest ih =>
    rw [List.mapM_cons] at h
    cases hv : atoi v with
    | none => rw [hv] at h; simp at h
    | some iv =>
      rw [hv] at h
      cases hrest : rest.mapM atoi with
      | none => rw [hrest] at h; simp at h
      | some irest =>
        rw [hrest] at h
        simp only [Option.bind_some, Option.pure_def, Option.bind_eq_bind,
          Option.some_bind, Option.some.injEq] at h
        simp [collectInts, hv, ih irest hrest, ← h]

theorem collectUUIDs_of_all (l : List GoStr)
    (h : l.all uuidParseOk = true) : collectUUIDs l = (l, false) := by
  induction l with
  | nil => rfl
  | cons v rest ih =>
    simp only [List.all_cons, Bool.and_eq_true] at h
    simp [collectUUIDs, h.1, ih h.2]

theorem collectInts_snd (l : List GoStr) :
    (collectInts l).2 = l.any (fun v => (atoi v).isNone) := by
  induction l with
  | nil => rfl
  | cons v rest ih =>
    cases hv : atoi v <;> simp [collectInts, hv, ih]

theorem collectUUIDs_snd (l : List GoStr) :
    (collectUUIDs l).2 = l.any (fun v => !uuidParseOk v) := by
  induction l with
  | nil => rfl
  | cons v rest ih =>
    cases hv : uuidParseOk v <;> simp [collectUUIDs, hv, ih]

theorem partBad_int (v : GoStr) : partBad (gs "int") v = (atoi v).isNone := by
  simp [partBad]

theorem partBad_uuid (v : GoStr) : partBad (gs "uuid") v = !uuidParseOk v := by
  simp [partBad, show gs "uuid" ≠ gs "int" from by decide]

theorem partBad_other (ft : GoStr) (h1 : ft ≠ gs "int") (h2 : ft ≠ gs "uuid")
    (v : GoStr) : partBad ft v = false := by
  simp [partBad, h1, h2]

theorem processEntry_preserves (ftypes : FieldMap) (db : DB) (invalid : Bool)
    (k : GoStr) (vs : List GoStr) (db' : DB) (inv' : Bool)
    (h : processEntry ftypes db invalid k vs = some (db', inv')) :
    db'.orders = db.orders ∧ db'.preloads = db.preloads := by
  unfold processEntry at h
  simp only [] at h
  repeat' split at h
  all_goals simp only [Option.some.injEq, Prod.mk.injEq, reduceCtorEq] at h
  all_goals obtain ⟨hdb, hinv⟩ := h
  all_goals subst hdb
  all_goals simp [dbWhere]

theorem processEntry_flag (ftypes : FieldMap) (db : DB) (invalid : Bool)
    (k : GoStr) (vs : List GoStr) (db' : DB) (inv' : Bool)
    (h : processEntry ftypes db invalid k vs = some (db', inv')) :
    inv' = (invalid || entryInvalid ftypes (k, vs)) := by
  unfold processEntry at h
  simp only [] at h
  repeat' split at h
  all_goals simp only [Option.some.injEq, Prod.mk.injEq, reduceCtorEq] at h
  all_goals obtain ⟨hdb, hinv⟩ := h
  all_goals subst hinv
  all_goals simp_all [entryInvalid, Function.comp_def, partBad_int, partBad_uuid,
    partBad_other, collectInts_snd, collectUUIDs_snd]

theorem processFilters_preserves (ftypes : FieldMap) (q : Params) (db : DB)
    (invalid : Bool) (db' : DB) (inv' : Bool)
    (h : processFilters ftypes db invalid q = some (db', inv')) :
    db'.orders = db.orders ∧ db'.preloads = db.preloads := by
  induction q generalizing db invalid with
  | nil =>
    simp only [processFilters, Option.some.injEq, Prod.mk.injEq] at h
    simp [h.1]
  | cons kv rest ih =>
    obtain ⟨k, vs⟩ := kv
    simp only [processFilters] at h
    cases he : processEntry ftypes db invalid k vs with
    | none => rw [he] at h; simp at h
    | some st =>
      obtain ⟨db1, inv1⟩ := st
      rw [he] at h
      have h1 := processEntry_preserves ftypes db invalid k vs db1 inv1 he
      have h2 := ih db1 inv1 h
      exact ⟨h2.1.trans h1.1, h2.2.trans h1.2⟩

theorem processFilters_flag (ftypes : FieldMap) (q : Params) (db : DB)
    (invalid : Bool) (db' : DB) (inv' : Bool)
    (h : processFilters ftypes db invalid q = some (db', inv')) :
    inv' = (invalid || filtersInvalid ftypes q) := by
  induction q generalizing db invalid with
  | nil =>
    simp only [processFilters, Option.some.injEq, Prod.mk.injEq] at h
    simp [← h.2, filtersInvalid]
  | cons kv rest ih =>
    obtain ⟨k, vs⟩ := kv
    simp only [processFilters] at h
    cases he : processEntry ftypes db invalid k vs with
    | none => rw [he] at h; simp at h
    | some st =>
      obtain ⟨db1, inv1⟩ := st
      rw [he] at h
      have h1 := processEntry_flag ftypes db invalid k vs db1 inv1 he
      have h2 := ih db1 inv1 h
      rw [h2, h1]
      simp [filtersInvalid, Bool.or_assoc]

theorem mapM_atoi_ne_nil {l : List GoStr} {ivs : List Int}
    (hl : l ≠ []) (h : l.mapM atoi = some ivs) : ivs ≠ [] := by
  cases l with
  | nil => exact absurd rfl hl
  | cons v t =>
    rw [List.mapM_cons] at h
    cases hv : atoi v with
    | none => rw [hv] at h; simp at h
    | some iv =>
      rw [hv] at h
      cases ht : t.mapM atoi with
      | none => rw [ht] at h; simp at h
      | some irest =>
        rw [ht] at h
        simp only [Option.bind_some, Option.pure_def, Option.bind_eq_bind,
          Option.some_bind, Option.some.injEq] at h
        simp [← h]

theorem map_trim_split_ne_nil (value : GoStr) :
    (splitSep ',' value).map trimSpace ≠ [] := by
  intro h
  rw [List.map_eq_nil_iff] at h
  exact splitSep_ne_nil ',' value h

theorem applyOrderBy_eq (q : Params) (opts : Options) (db : DB) :
    applyOrderBy q opts db = dbOrder db (resolvedOrder q opts) := by
  unfold applyOrderBy resolvedOrder
  by_cases h1 : getQ q (gs "order") = [] <;> by_cases h2 : opts.OrderBy = [] <;>
    simp [h1, h2]

theorem applySearch_preserves (q : Params) (opts : Options) (db : DB) :
    (applySearch q opts db).orders = db.orders ∧
    (applySearch q opts db).preloads = db.preloads := by
  unfold applySearch
  simp only []
  repeat' split
  all_goals simp [dbWhere]

theorem applyGroupBy_preloads (q : Params) (opts : Options) (db : DB) :
    (applyGroupBy q opts db).preloads = db.preloads := by
  unfold applyGroupBy
  simp only []
  repeat' split
  all_goals simp [dbSelect, dbGroup, dbOrder]

theorem applyGroupBy_enabled (q : Params) (opts : Options) (db : DB)
    (hg : opts.AllowGroupBy = true) (hq : getQ q (gs "groupby") ≠ []) :
    (applyGroupBy q opts db).orders = db.orders ++ [gs "MAX(created_at) desc"] := by
  unfold applyGroupBy
  simp [hg, hq, dbSelect, dbGroup, dbOrder]

theorem foldl_dbPreload_preloads (l : List GoStr) (db : DB) :
    (l.foldl dbPreload db).preloads = db.preloads ++ l := by
  induction l generalizing db with
  | nil => simp
  | cons a t ih => simp [List.foldl_cons, ih, dbPreload]

theorem foldl_dbPreload_orders (l : List GoStr) (db : DB) :
    (l.foldl dbPreload db).orders = db.orders := by
  induction l generalizing db with
  | nil => simp
  | cons a t ih => simp [List.foldl_cons, ih, dbPreload]

theorem foldl_trim_preloads (l : List GoStr) (db : DB) :
    (l.foldl (fun d f => let f := trimSpace f; if f ≠ [] then dbPreload d f else d)
        db).preloads =
      db.preloads ++ (l.map trimSpace).filter (fun f => !f.isEmpty) := by
  induction l generalizing db with
  | nil => simp
  | cons a t ih =>
    rw [List.foldl_cons]
    by_cases ha : trimSpace a = []
    · rw [show (let f := trimSpace a; if f ≠ [] then dbPreload db f else db) = db
          from by simp [ha]]
      rw [ih db]
      simp [ha]
    · rw [show (let f := trimSpace a; if f ≠ [] then dbPreload db f else db) =
            dbPreload db (trimSpace a)
          from by simp [ha]]
      rw [ih (dbPreload db (trimSpace a))]
      simp [dbPreload, ha, List.isEmpty_iff, List.filter_cons]

theorem foldl_trim_orders (l : List GoStr) (db : DB) :
    (l.foldl (fun d f => let f := trimSpace f; if f ≠ [] then dbPreload d f else d)
        db).orders = db.orders := by
  induction l generalizing db with
  | nil => simp
  | cons a t ih =>
    rw [List.foldl_cons]
    by_cases ha : trimSpace a = []
    · rw [show (let f := trimSpace a; if f ≠ [] then dbPreload db f else db) = db
          from by simp [ha]]
      exact ih db
    · rw [show (let f := trimSpace a; if f ≠ [] then dbPreload db f else db) =
            dbPreload db (trimSpace a)
          from by simp [ha]]
      rw [ih (dbPreload db (trimSpace a))]
      simp [dbPreload]

theorem applyPreload_orders (q : Params) (opts : Options) (db : DB) :
    (applyPreload q opts db).orders = db.orders := by
  unfold applyPreload
  simp only []
  by_cases h : getQ q (gs "preload") = []
  · rw [if_neg (not_not_intro h)]
    exact foldl_dbPreload_orders _ _
  · rw [if_pos h]
    exact foldl_trim_orders _ _

theorem buildQuery_ok (q : Params) (db : DB) (opts : Options) (db5 : DB)
    (page pageSize : Int)
    (hres : buildQuery q db opts = some (.ok (db5, page, pageSize))) :
    ∃ db1 : DB,
      processFilters (mergeFieldTypes opts.DefaultFieldTypes).1 db false q =
        some (db1, false) ∧
      db5 = applyOrderBy q opts
        (applyGroupBy q opts (applySearch q opts (applyPreload q opts db1))) ∧
      page = resolvePage q opts ∧ pageSize = resolvePageSize q opts := by
  unfold buildQuery at hres
  simp only [] at hres
  cases hpf : processFilters (mergeFieldTypes opts.DefaultFieldTypes).1 db false q with
  | none => rw [hpf] at hres; simp at hres
  | some st =>
    obtain ⟨db1, inv⟩ := st
    rw [hpf] at hres
    cases inv with
    | true => simp at hres
    | false =>
      simp only [Bool.false_eq_true, if_false, Option.some.injEq, Except.ok.injEq,
        Prod.mk.injEq] at hres
      exact ⟨db1, rfl, hres.1.symm, hres.2.1.symm, hres.2.2.symm⟩

/-! ### Claims -/

/-- Claim C5: for every `filter[<field>]` entry whose first value is a single
comma-free value valid for the field's declared type, the emitted condition
is an equality condition on that field with exactly the one coerced value
(the parsed integer for Integer fields, the string itself for UUID and
String fields); for every comma-separated value all of whose trimmed parts
are valid for the declared type, the emitted condition is a membership (`IN`)
condition containing all coerced parts in their original order. -/
theorem C5_filter_condition_shape (ftypes : FieldMap) (db : DB) (invalid : Bool)
    (f value : GoStr) (rest : List GoStr) (hf : f ≠ []) :
    (value.contains ',' = false →
      (mapLookup ftypes f = gs "int" →
        ∀ n, atoi value = some n →
          processEntry ftypes db invalid (filterKey f) (value :: rest) =
            some (dbWhere db (f ++ gs " = ?") (.intVal n), invalid)) ∧
      (mapLookup ftypes f ≠ gs "int" →
        (mapLookup ftypes f = gs "uuid" → uuidParseOk value = true) →
        processEntry ftypes db invalid (filterKey f) (value :: rest) =
          some (dbWhere db (f ++ gs " = ?") (.strVal value), invalid))) ∧
    (value.contains ',' = true →
      (mapLookup ftypes f = gs "int" →
        ∀ ivs, ((splitSep ',' value).map trimSpace).mapM atoi = some ivs →
          processEntry ftypes db invalid (filterKey f) (value :: rest) =
            some (dbWhere db (f ++ gs " IN ?") (.intList ivs), invalid)) ∧
      (mapLookup ftypes f ≠ gs "int" →
        (mapLookup ftypes f = gs "uuid" →
          ((splitSep ',' value).map trimSpace).all uuidParseOk = true) →
        processEntry ftypes db invalid (filterKey f) (value :: rest) =
          some (dbWhere db (f ++ gs " IN ?")
                  (.strList ((splitSep ',' value).map trimSpace)), invalid))) := by
  constructor
  · intro hc
    have hc' : ¬(',' ∈ value) := by simpa using hc
    constructor
    · intro hft n hn
      unfold processEntry
      rw [filterKey_cond]
      simp only [if_true, filterKey_field]
      simp [hf, hc', hft, hn]
    · intro hft huuid
      unfold processEntry
      rw [filterKey_cond]
      simp only [if_true, filterKey_field]
      by_cases hu : mapLookup ftypes f = gs "uuid"
      · simp [hf, hc', hft, hu, huuid hu, show gs "uuid" ≠ gs "int" by decide]
      · simp [hf, hc', hft, hu]
  · intro hc
    have hc' : (',' ∈ value) := by simpa using hc
    constructor
    · intro hft ivs hmm
      have hci := collectInts_of_mapM _ ivs hmm
      have hivs : ivs ≠ [] := mapM_atoi_ne_nil (map_trim_split_ne_nil value) hmm
      unfold processEntry
      rw [filterKey_cond]
      simp only [if_true, filterKey_field]
      simp [hf, hc', hft, hci, hivs]
    · intro hft huuid
      unfold processEntry
      rw [filterKey_cond]
      simp only [if_true, filterKey_field]
      by_cases hu : mapLookup ftypes f = gs "uuid"
      · have hcu := collectUUIDs_of_all _ (huuid hu)
        have hp := map_trim_split_ne_nil value
        simp [hf, hc', hft, hu, hcu, hp, show gs "uuid" ≠ gs "int" by decide]
      · simp [hf, hc', hft, hu]

/-- Witness for C5: concrete instances of all four cases — a valid single
integer filter, a valid single string filter, a valid integer list filter
(order preserved), and a valid string list filter. -/
theorem C5_filter_condition_shape_witness :
    (processEntry defaultAllowed {} false (filterKey (gs "jumlah")) [gs "7"] =
      some (dbWhere {} (gs "jumlah" ++ gs " = ?") (.intVal 7), false)) ∧
    (processEntry defaultAllowed {} false (filterKey (gs "status")) [gs "active"] =
      some (dbWhere {} (gs "status" ++ gs " = ?") (.strVal (gs "active")), false)) ∧
    (processEntry defaultAllowed {} false (filterKey (gs "jumlah")) [gs "7, 8,9"] =
      some (dbWhere {} (gs "jumlah" ++ gs " IN ?") (.intList [7, 8, 9]), false)) ∧
    (processEntry defaultAllowed {} false (filterKey (gs "status")) [gs "a,b"] =
      some (dbWhere {} (gs "status" ++ gs " IN ?")
              (.strList [gs "a", gs "b"]), false)) :=
  ⟨((C5_filter_condition_shape defaultAllowed {} false (gs "jumlah") (gs "7") []
      (by decide)).1 (by decide)).1 (by decide) 7 (by decide),
   ((C5_filter_condition_shape defaultAllowed {} false (gs "status") (gs "active") []
      (by decide)).1 (by decide)).2 (by decide) (by decide),
   ((C5_filter_condition_shape defaultAllowed {} false (gs "jumlah") (gs "7, 8,9") []
      (by decide)).2 (by decide)).1 (by decide) [7, 8, 9] (by decide),
   ((C5_filter_condition_shape defaultAllowed {} false (gs "status") (gs "a,b") []
      (by decide)).2 (by decide)).2 (by decide) (by decide)⟩

/-- Claim C4: for every `total ≥ 0`, `page ≥ 1` and `pageSize ≥ 1`, the
pagination metadata computed by `PaginateGeneric` satisfies
`pageCount = ceil(total / pageSize)` in exact integer arithmetic (stated by
the defining inequalities `(pageCount-1)*pageSize < total ≤ pageCount*pageSize`
of the ceiling), `hasNext = (page < pageCount)` and
`hasPrev = (page > 1 ∧ pageCount > 0)`; in particular `total = 0` gives
`pageCount = 0`, `hasNext = false`, `hasPrev = false` even when `page > 1`.
The `total = 48, page = 1, pageSize = 10` instance is the witness. -/
theorem C4_pagination_meta {T : Type} (eng : Engine T) (db : DB)
    (page pageSize total : Int) (rows : List T) (pg : Pagination)
    (h0 : 0 ≤ total) (h1 : 1 ≤ page) (h2 : 1 ≤ pageSize)
    (hc : eng.count db = .ok total)
    (hres : paginateGeneric eng db page pageSize = .ok (rows, pg)) :
    total ≤ pg.pageCount * pageSize ∧
    (pg.pageCount - 1) * pageSize < total ∧
    (pg.hasNext = true ↔ page < pg.pageCount) ∧
    (pg.hasPrev = true ↔ 1 < page ∧ 0 < pg.pageCount) ∧
    (total = 0 → pg.pageCount = 0 ∧ pg.hasNext = false ∧ pg.hasPrev = false) := by
  simp only [paginateGeneric] at hres
  rw [hc] at hres
  cases hfind : eng.find { db with limit := some pageSize, offset := some ((page - 1) * pageSize) } with
  | error e => rw [hfind] at hres; simp at hres
  | ok out =>
    rw [hfind] at hres
    simp only [Except.ok.injEq, Prod.mk.injEq] at hres
    obtain ⟨-, hpg⟩ := hres
    subst hpg
    set q := Int.tdiv (total + pageSize - 1) pageSize with hq
    have key := Int.tdiv_add_tmod (total + pageSize - 1) pageSize
    have hr0 : 0 ≤ (total + pageSize - 1).tmod pageSize :=
      Int.tmod_nonneg _ (by linarith)
    have hr1 : (total + pageSize - 1).tmod pageSize < pageSize :=
      Int.tmod_lt_of_pos _ (by linarith)
    rw [← hq] at key
    have hmc : q * pageSize = pageSize * q := mul_comm _ _
    have g1 : total ≤ q * pageSize := by linarith
    have g2 : (q - 1) * pageSize < total := by
      have hexp : (q - 1) * pageSize = pageSize * q - pageSize := by ring
      linarith
    refine ⟨g1, g2, by simp, by simp [Bool.and_eq_true], ?_⟩
    intro ht
    subst ht
    have hqle : q ≤ 0 := by nlinarith
    have hqge : 0 ≤ q := by nlinarith
    have hq0 : q = 0 := le_antisymm hqle hqge
    refine ⟨hq0, ?_, ?_⟩
    · have hnp : ¬(page < (0 : Int)) := by linarith
      simp only [hq0]
      simp [hnp]
    · simp only [hq0]
      simp

/-- A concrete execution engine reporting 48 matching rows. -/
def eng48 : Engine Unit := { count := fun _ => .ok 48, find := fun _ => .ok [] }

/-- The pagination metadata produced for `total = 48, page = 1, pageSize = 10`. -/
def pg48 : Pagination :=
  { page := 1, pageSize := 10, pageCount := 5, total := 48, hasNext := true, hasPrev := false }

/-- Witness for C4: at `total = 48, page = 1, pageSize = 10` the computed
metadata is `pageCount = 5, hasNext = true, hasPrev = false` and satisfies
all the stated properties. -/
theorem C4_pagination_meta_witness :
    (paginateGeneric eng48 {} 1 10 = .ok ([], pg48)) ∧
    ((48:Int) ≤ pg48.pageCount * 10 ∧
     (pg48.pageCount - 1) * 10 < (48:Int) ∧
     (pg48.hasNext = true ↔ (1:Int) < pg48.pageCount) ∧
     (pg48.hasPrev = true ↔ (1:Int) < 1 ∧ 0 < pg48.pageCount) ∧
     ((48:Int) = 0 → pg48.pageCount = 0 ∧ pg48.hasNext = false ∧ pg48.hasPrev = false)) :=
  ⟨rfl,
   C4_pagination_meta eng48 {} 1 10 48 [] pg48 (by decide) (by decide) (by decide)
     rfl rfl⟩

/-- Claim C10: `ReadPaginatedFromGin` returns exactly the same result and
error as `ReadPaginated` on the same arguments. -/
theorem C10_gin_wrapper_eq {T : Type} (eng : Engine T) (q : Params) (db : DB)
    (opts : Options) : readPaginatedFromGin eng q db opts = readPaginated eng q db opts :=
  rfl

/-- Claim C2 (refuted; code bug): the defaults merge does NOT operate on an
independent copy.  Evaluated at a caller-supplied empty (non-nil) map, the
map object the caller observes after the call contains the four built-in
defaults: the merge wrote through the shared Go map reference. -/
theorem C2_merge_mutates_caller_map :
    (mergeFieldTypes (some [])).2 = some defaultAllowed ∧
    (mergeFieldTypes (some [])).2 ≠ some [] := by
  constructor
  · decide
  · decide

/-- An execution engine for a data-free row type, reporting zero rows. -/
def engUnit : Engine Unit := { count := fun _ => .ok 0, find := fun _ => .ok [] }

/-- Claim C1: whenever some filter value (or comma-separated part) fails
coercion for its declared Integer or UUID field type, `ReadPaginated`
returns the invalid-filter error together with an empty result (empty data,
empty metadata), independently of the execution engine — so none of the
filter conditions built for the request are ever applied — and regardless of
any other valid parts or valid filters in the same request. -/
theorem C1_invalid_filter_fail_closed {T : Type} (eng : Engine T) (q : Params)
    (db : DB) (opts : Options)
    (hsome : (processFilters (mergeFieldTypes opts.DefaultFieldTypes).1 db false q).isSome)
    (hinv : filtersInvalid (mergeFieldTypes opts.DefaultFieldTypes).1 q = true) :
    readPaginated eng q db opts =
      some ({ data := [], meta := [] }, some .invalidFilter) := by
  rw [Option.isSome_iff_exists] at hsome
  obtain ⟨st, hst⟩ := hsome
  obtain ⟨db1, inv1⟩ := st
  have hflag := processFilters_flag _ q db false db1 inv1 hst
  rw [hinv] at hflag
  simp only [Bool.false_or] at hflag
  subst hflag
  unfold readPaginated buildQuery
  simp only []
  rw [hst]
  rfl

/-- A query combining a valid String filter with an Integer filter whose
value is not numeric. -/
def q1 : Params := [(gs "filter[status]", [gs "active"]), (gs "filter[jumlah]", [gs "abc"])]

/-- Witness for C1: the mixed query `q1` aborts with the invalid-filter
error and the empty result. -/
theorem C1_invalid_filter_fail_closed_witness :
    ((processFilters (mergeFieldTypes ({} : Options).DefaultFieldTypes).1 {} false q1).isSome ∧
      filtersInvalid (mergeFieldTypes ({} : Options).DefaultFieldTypes).1 q1 = true) ∧
    readPaginated engUnit q1 {} {} =
      some ({ data := [], meta := [] }, some .invalidFilter) :=
  ⟨⟨by decide, by decide⟩,
   C1_invalid_filter_fail_closed engUnit q1 {} {} (by decide) (by decide)⟩

/-- Claim C7: the applied order expression is the `order` parameter when
non-empty, else the configured default order when non-empty, else the fixed
`created_at desc`; it is the last order clause of the composed request. -/
theorem C7_order_resolution (q : Params) (db : DB) (opts : Options) (db5 : DB)
    (page pageSize : Int)
    (hres : buildQuery q db opts = some (.ok (db5, page, pageSize))) :
    db5.orders.getLast? = some (resolvedOrder q opts) := by
  obtain ⟨db1, -, hdb5, -, -⟩ := buildQuery_ok q db opts db5 page pageSize hres
  rw [hdb5, applyOrderBy_eq]
  simp [dbOrder, List.getLast?_concat]

/-- The request state composed for an empty query with default options. -/
def db7 : DB := { orders := [gs "created_at desc"] }

/-- Witness for C7: with no `order` parameter and no configured default the
applied order expression is `created_at desc`. -/
theorem C7_order_resolution_witness :
    buildQuery [] {} {} = some (.ok (db7, 1, 10)) ∧
    db7.orders.getLast? = some (resolvedOrder [] {}) :=
  ⟨rfl, C7_order_resolution [] {} {} db7 1 10 rfl⟩

/-- Claim C8: the effective page and pageSize are always at least 1; when the
raw parameter is absent, non-numeric or not a positive integer, it is
silently ignored in favour of the resolved default (the caller's positive
default, else 1 for page and 10 for pageSize) and never causes an error. -/
theorem C8_page_size_resolution (q : Params) (opts : Options) :
    1 ≤ resolvePage q opts ∧ 1 ≤ resolvePageSize q opts ∧
    ((∀ n : Int, atoi (getQ q (gs "page")) = some n → n ≤ 0) →
      resolvePage q opts = (if opts.DefaultPage ≤ 0 then 1 else opts.DefaultPage)) ∧
    ((∀ n : Int, atoi (getQ q (gs "pageSize")) = some n → n ≤ 0) →
      resolvePageSize q opts =
        (if opts.DefaultPageSize ≤ 0 then 10 else opts.DefaultPageSize)) := by
  refine ⟨?_, ?_, ?_, ?_⟩
  · unfold resolvePage
    simp only []
    repeat' split
    all_goals omega
  · unfold resolvePageSize
    simp only []
    repeat' split
    all_goals omega
  · intro hbad
    unfold resolvePage
    simp only []
    split
    · rfl
    · split
      · next x pi heq => rw [if_neg (by have := hbad pi heq; omega)]
      · rfl
  · intro hbad
    unfold resolvePageSize
    simp only []
    split
    · rfl
    · split
      · next x psi heq => rw [if_neg (by have := hbad psi heq; omega)]
      · rfl

/-- A query with a non-numeric `page` and a negative `pageSize`. -/
def q8 : Params := [(gs "page", [gs "abc"]), (gs "pageSize", [gs "-3"])]

/-- Witness for C8: both malformed parameters fall back to the defaults 1
and 10. -/
theorem C8_page_size_resolution_witness :
    (1 ≤ resolvePage q8 {} ∧ 1 ≤ resolvePageSize q8 {}) ∧
    resolvePage q8 {} = (if ({} : Options).DefaultPage ≤ 0 then 1 else ({} : Options).DefaultPage) ∧
    resolvePageSize q8 {} =
      (if ({} : Options).DefaultPageSize ≤ 0 then 10 else ({} : Options).DefaultPageSize) :=
  ⟨⟨(C8_page_size_resolution q8 {}).1, (C8_page_size_resolution q8 {}).2.1⟩,
   (C8_page_size_resolution q8 {}).2.2.1 (by
      intro n hn
      rw [show atoi (getQ q8 (gs "page")) = none from rfl] at hn
      exact absurd hn (by simp)),
   (C8_page_size_resolution q8 {}).2.2.2 (by
      intro n hn
      rw [show atoi (getQ q8 (gs "pageSize")) = some (-3) from rfl] at hn
      simp at hn
      omega)⟩

theorem processEntry_panic (ftypes : FieldMap) (db : DB) (invalid : Bool)
    (kv : GoStr × List GoStr) (h : panicEntry kv = true) :
    processEntry ftypes db invalid kv.1 kv.2 = none := by
  obtain ⟨k, vs⟩ := kv
  simp only [panicEntry, Bool.and_eq_true, Bool.not_eq_true', decide_eq_true_eq,
    decide_eq_false_iff_not] at h
  obtain ⟨⟨⟨hpre, hsuf⟩, hfield⟩, hvs⟩ := h
  subst hvs
  unfold processEntry
  simp only []
  rw [hpre, hsuf]
  simp [hfield]

theorem processFilters_panic (ftypes : FieldMap) (q : Params) (db : DB)
    (invalid : Bool) (h : ∃ kv ∈ q, panicEntry kv = true) :
    processFilters ftypes db invalid q = none := by
  induction q generalizing db invalid with
  | nil => simp at h
  | cons kv rest ih =>
    obtain ⟨k, vs⟩ := kv
    obtain ⟨kv', hmem, hpe⟩ := h
    simp only [processFilters]
    rcases List.mem_cons.mp hmem with heq | hmem'
    · subst heq
      rw [processEntry_panic ftypes db invalid _ hpe]
    · cases he : processEntry ftypes db invalid k vs with
      | none => rfl
      | some st =>
        obtain ⟨db1, inv1⟩ := st
        exact ih db1 inv1 ⟨kv', hmem', hpe⟩

theorem processEntry_total (ftypes : FieldMap) (db : DB) (invalid : Bool)
    (k : GoStr) (vs : List GoStr) (h : vs ≠ []) :
    (processEntry ftypes db invalid k vs).isSome := by
  unfold processEntry
  simp only []
  repeat' split
  all_goals simp_all [List.head?_eq_none_iff]

theorem processFilters_total (ftypes : FieldMap) (q : Params) (db : DB)
    (invalid : Bool) (h : ∀ kv ∈ q, kv.2 ≠ []) :
    (processFilters ftypes db invalid q).isSome := by
  induction q generalizing db invalid with
  | nil => simp [processFilters]
  | cons kv rest ih =>
    obtain ⟨k, vs⟩ := kv
    have hk : vs ≠ [] := h (k, vs) (List.mem_cons_self _ _)
    simp only [processFilters]
    cases he : processEntry ftypes db invalid k vs with
    | none =>
      have := processEntry_total ftypes db invalid k vs hk
      rw [he] at this
      simp at this
    | some st =>
      obtain ⟨db1, inv1⟩ := st
      exact ih db1 inv1 (fun kv' hm => h kv' (List.mem_cons_of_mem _ hm))

/-- Claim C9: if the raw parameter map contains a `filter[<field>]` key (with
a non-empty field name) whose value list is empty, `ReadPaginated` indexes
element 0 of the empty list and panics; when every present key has at least
one value, the access is in bounds and the function is total. -/
theorem C9_empty_value_panic {T : Type} (eng : Engine T) (q : Params) (db : DB)
    (opts : Options) :
    ((∃ kv ∈ q, panicEntry kv = true) → readPaginated eng q db opts = none) ∧
    ((∀ kv ∈ q, kv.2 ≠ []) → (readPaginated eng q db opts).isSome) := by
  constructor
  · intro hex
    unfold readPaginated buildQuery
    simp only []
    rw [processFilters_panic _ q db false hex]
  · intro hall
    unfold readPaginated buildQuery
    simp only []
    have hts := processFilters_total (mergeFieldTypes opts.DefaultFieldTypes).1 q db false hall
    rw [Option.isSome_iff_exists] at hts
    obtain ⟨st, hst⟩ := hts
    obtain ⟨db1, inv1⟩ := st
    rw [hst]
    cases inv1 with
    | true => simp
    | false =>
      simp only [Bool.false_eq_true, if_false]
      split <;> simp

/-- A query whose filter key has an empty value list (the panic shape). -/
def q9a : Params := [(gs "filter[id]", [])]

/-- A query in which every key has at least one value. -/
def q9b : Params := [(gs "filter[id]", [gs "x"]), (gs "page", [gs "2"])]

/-- Witness for C9: the empty-value-list query panics; the well-formed query
returns a result. -/
theorem C9_empty_value_panic_witness :
    ((∃ kv ∈ q9a, panicEntry kv = true) ∧ readPaginated engUnit q9a {} {} = none) ∧
    ((∀ kv ∈ q9b, kv.2 ≠ []) ∧ (readPaginated engUnit q9b {} {}).isSome) :=
  ⟨⟨by decide, (C9_empty_value_panic engUnit q9a {} {}).1 (by decide)⟩,
   ⟨by decide, (C9_empty_value_panic engUnit q9b {} {}).2 (by decide)⟩⟩

/-- The group-by query of the C3 counterexample. -/
def q3 : Params := [(gs "groupby", [gs "category_id"])]

/-- Options enabling group-by, with no configured default order. -/
def opts3 : Options := { AllowGroupBy := true }

/-- The request state composed for `q3` under `opts3`. -/
def db3 : DB :=
  { selectExpr := some (gs "category_id, MAX(created_at) as created_at"),
    groups := [gs "category_id"],
    orders := [gs "MAX(created_at) desc", gs "created_at desc"] }

/-- Claim C3 counterexample: with group-by enabled, `groupby=category_id`
and no order parameter, the composed request carries a further order clause
(`created_at desc`) AFTER the group path's `MAX(created_at) desc` clause —
the order-by step still runs after the group clause, so the claim that no
order or default-order clause is applied after the group clause is false. -/
theorem C3_group_order_counterexample :
    buildQuery q3 {} opts3 = some (.ok (db3, 1, 10)) ∧
    db3.orders ≠ [gs "MAX(created_at) desc"] ∧
    db3.orders.getLast? = some (gs "created_at desc") :=
  ⟨rfl, by decide, by decide⟩

/-- Claim C3 as amended: in group mode the group path appends
`MAX(created_at) desc` first, and the later order-by step still appends its
resolved clause (order parameter, else configured default, else
`created_at desc`) after it — so the max-aggregate ordering is the primary
sort and the resolved order only a subsequent tie-breaker; in particular
with no order parameter and no configured default the order clauses are
exactly `MAX(created_at) desc` followed by `created_at desc`. -/
theorem C3_group_order_amended (q : Params) (db : DB) (opts : Options) (db5 : DB)
    (page pageSize : Int) (hg : opts.AllowGroupBy = true)
    (hq : getQ q (gs "groupby") ≠ [])
    (hres : buildQuery q db opts = some (.ok (db5, page, pageSize))) :
    db5.orders = db.orders ++ [gs "MAX(created_at) desc", resolvedOrder q opts] ∧
    (getQ q (gs "order") = [] → opts.OrderBy = [] →
      db5.orders = db.orders ++ [gs "MAX(created_at) desc", gs "created_at desc"]) := by
  obtain ⟨db1, hpf, hdb5, -, -⟩ := buildQuery_ok q db opts db5 page pageSize hres
  have hords1 := (processFilters_preserves _ q db false db1 false hpf).1
  have hmain : db5.orders = db.orders ++ [gs "MAX(created_at) desc", resolvedOrder q opts] := by
    rw [hdb5, applyOrderBy_eq]
    simp only [dbOrder]
    rw [applyGroupBy_enabled _ _ _ hg hq,
      (applySearch_preserves q opts (applyPreload q opts db1)).1,
      applyPreload_orders, hords1]
    simp
  refine ⟨hmain, fun ho hob => ?_⟩
  rw [hmain]
  unfold resolvedOrder
  simp [ho, hob]

/-- Witness for C3 (amended): the concrete `q3`/`opts3` instance. -/
theorem C3_group_order_amended_witness :
    db3.orders = ({} : DB).orders ++ [gs "MAX(created_at) desc", resolvedOrder q3 opts3] ∧
    (getQ q3 (gs "order") = [] → opts3.OrderBy = [] →
      db3.orders = ({} : DB).orders ++ [gs "MAX(created_at) desc", gs "created_at desc"]) :=
  C3_group_order_amended q3 {} opts3 db3 1 10 rfl (by decide) rfl

/-- The preload query of the C6 counterexample: one part trims to empty. -/
def q6 : Params := [(gs "preload", [gs "A,"])]

/-- Options configuring a default preload list `{C}`. -/
def opts6 : Options := { PreloadFields := [gs "C"] }

/-- The request state composed for `q6` under `opts6`. -/
def db6 : DB := { preloads := [gs "A"], orders := [gs "created_at desc"] }

/-- Claim C6 counterexample: for `preload=A,` the set of requested relations
is `[A]`, not the full list of trimmed comma-separated parts `[A, ""]` —
parts that trim to the empty string are skipped, so "exactly the trimmed
comma-separated names" is false as literally stated. -/
theorem C6_preload_counterexample :
    buildQuery q6 {} opts6 = some (.ok (db6, 1, 10)) ∧
    db6.preloads ≠ (splitSep ',' (getQ q6 (gs "preload"))).map trimSpace :=
  ⟨rfl, by decide⟩

/-- Claim C6 as amended: with a non-empty `preload` parameter the requested
relations are exactly the trimmed comma-separated parts that are non-empty
after trimming, fully replacing the caller's configured default list (no
configured default relation is requested); with the parameter absent,
exactly the caller's default relation list is requested. -/
theorem C6_preload_override (q : Params) (db : DB) (opts : Options) (db5 : DB)
    (page pageSize : Int)
    (hres : buildQuery q db opts = some (.ok (db5, page, pageSize))) :
    (getQ q (gs "preload") ≠ [] →
      db5.preloads = db.preloads ++
        ((splitSep ',' (getQ q (gs "preload"))).map trimSpace).filter (fun f => !f.isEmpty)) ∧
    (getQ q (gs "preload") = [] →
      db5.preloads = db.preloads ++ opts.PreloadFields) := by
  obtain ⟨db1, hpf, hdb5, -, -⟩ := buildQuery_ok q db opts db5 page pageSize hres
  have hpre1 := (processFilters_preserves _ q db false db1 false hpf).2
  rw [hdb5, applyOrderBy_eq]
  simp only [dbOrder]
  rw [applyGroupBy_preloads, (applySearch_preserves q opts (applyPreload q opts db1)).2]
  constructor
  · intro h
    unfold applyPreload
    simp only []
    rw [if_pos h, foldl_trim_preloads, hpre1]
  · intro h
    unfold applyPreload
    simp only []
    rw [if_neg (not_not_intro h), foldl_dbPreload_preloads, hpre1]

/-- The request state composed for an empty query under `opts6`. -/
def db6c : DB := { preloads := [gs "C"], orders := [gs "created_at desc"] }

/-- Witness for C6 (amended): `preload=A,` requests exactly `[A]` (the
configured default `C` is not requested), and with the parameter absent the
configured `[C]` is requested. -/
theorem C6_preload_override_witness :
    (db6.preloads = ({} : DB).preloads ++
        ((splitSep ',' (getQ q6 (gs "preload"))).map trimSpace).filter (fun f => !f.isEmpty)) ∧
    (db6c.preloads = ({} : DB).preloads ++ opts6.PreloadFields) :=
  ⟨(C6_preload_override q6 {} opts6 db6 1 10 rfl).1 (by decide),
   (C6_preload_override [] {} opts6 db6c 1 10 rfl).2 rfl⟩

end MagicRest
